import Mathlib

/-!
Shallow embedding of `src/ringbuffer.h` (class `RingBuffer`).

The C++ class keeps six `std::atomic<int>` fields plus a heap byte array.
Every operation first takes a `GetAtomicSnapshot()` of the six fields,
computes on the snapshot, and (for mutators) writes the snapshot back with
`UpdateAtomicState`.  In a sequential semantics snapshot/update are the
identity, so each member function is embedded as a pure function on the
record below.  C++ `int` is embedded as `Int` (no overflow occurs at the
sizes the claims touch); the C++ `%` operator on `int` is truncation
division, i.e. `Int.tmod`.  The byte storage `mBuffer` is a `List Nat`
and `memcpy` ranges become `List.take`/`List.drop` slices.
-/

structure RingBuffer where
  bufSize : Int
  freeSpace : Int
  readPos : Int
  writePos : Int
  saveFreeSpace : Int
  saveReadPos : Int
  buffer : List Nat
  deriving Repr, DecidableEq

namespace RingBuffer

/-- `BufferSnapshot::InSaveMode`: `saveFreeSpace != -1`. -/
def InSaveMode (s : RingBuffer) : Bool := s.saveFreeSpace ≠ -1

/-- `BufferSnapshot::EffectiveFreeSpace`. -/
def EffectiveFreeSpace (s : RingBuffer) : Int :=
  if s.InSaveMode then s.saveFreeSpace else s.freeSpace

/-- `BufferSnapshot::UsedSpace`: `bufSize - EffectiveFreeSpace()`. -/
def snapUsedSpace (s : RingBuffer) : Int := s.bufSize - s.EffectiveFreeSpace

/-- Public `RingBuffer::UsedSpace` (line 113): `bufSize - freeSpace`
(note: the public method uses the raw `freeSpace` field, not
`EffectiveFreeSpace`). -/
def UsedSpace (s : RingBuffer) : Int := s.bufSize - s.freeSpace

/-- Public `RingBuffer::FreeSpace` (line 108). -/
def FreeSpace (s : RingBuffer) : Int := s.freeSpace

/-- `RingBuffer::BufSize`. -/
def BufSize (s : RingBuffer) : Int := s.bufSize

/-- `RingBuffer::IsReadMode`: `mSaveFreeSpace == -1`. -/
def IsReadMode (s : RingBuffer) : Bool := s.saveFreeSpace = -1

/-- `RingBuffer::Empty`: zero both cursors, `freeSpace := bufSize`,
clear the save state.  The stored bytes are untouched. -/
def Empty (s : RingBuffer) : RingBuffer :=
  { s with readPos := 0, writePos := 0, freeSpace := s.bufSize,
           saveFreeSpace := -1, saveReadPos := -1 }

/-- `RingBuffer::Init(inSize)`: allocate `inSize` bytes (`new uint8_t[inSize]`,
zero-modelled content), set `bufSize := inSize`, then `Empty()`.  The
successful return value 0 is dropped; allocation failure is outside the
embedding. -/
def Init (inSize : Int) : RingBuffer :=
  Empty { bufSize := inSize, freeSpace := 0, readPos := 0, writePos := 0,
          saveFreeSpace := 0, saveReadPos := 0,
          buffer := List.replicate inSize.toNat 0 }

/-- `memcpy(dst, &mBuffer[start], len)` as the byte list copied out. -/
def memcpyFrom (buf : List Nat) (start len : Int) : List Nat :=
  (buf.drop start.toNat).take len.toNat

/-- `memcpy(&mBuffer[start], src, src.length)`: overwrite `buf` at
offset `start` with `src`. -/
def memcpyTo (buf : List Nat) (start : Int) (src : List Nat) : List Nat :=
  buf.take start.toNat ++ src ++ buf.drop (start.toNat + src.length)

/-- `RingBuffer::ReadData(data, bytes)` (lines 120-152).  `wantData`
models whether the `data` pointer is non-null; the copied bytes are
returned in place of writing through the pointer.  Result:
`(return value, bytes copied out, new state)`. -/
def ReadData (s : RingBuffer) (wantData : Bool) (bytes0 : Int) :
    Int × List Nat × RingBuffer :=
  let usedSpace := s.snapUsedSpace
  let bytes := min usedSpace bytes0
  if bytes = 0 then (0, [], s)
  else
    let endRead := (s.readPos + bytes).tmod s.bufSize
    let data :=
      if wantData then
        if endRead > s.readPos then memcpyFrom s.buffer s.readPos bytes
        else
          let firstPartSize := s.bufSize - s.readPos
          if 0 < firstPartSize ∧ firstPartSize ≤ bytes then
            memcpyFrom s.buffer s.readPos firstPartSize ++
              (if 0 < endRead then memcpyFrom s.buffer 0 endRead else [])
          else
            memcpyFrom s.buffer s.readPos (min bytes firstPartSize)
      else []
    (bytes, data,
      { s with readPos := endRead, freeSpace := s.freeSpace + bytes })

/-- `RingBuffer::WriteData(data, bytes)` (lines 154-180).  `data = some src`
models a non-null source pointer holding the bytes `src` (`memcpy` reads
exactly the clamped count from it); `none` models a null pointer.
Result: `(return value, new state)`. -/
def WriteData (s : RingBuffer) (data : Option (List Nat)) (bytes0 : Int) :
    Int × RingBuffer :=
  let freeSpace := s.EffectiveFreeSpace
  let bytes := min freeSpace bytes0
  if bytes = 0 then (0, s)
  else
    let endWrite := (s.writePos + bytes).tmod s.bufSize
    let buf :=
      match data with
      | none => s.buffer
      | some src =>
        let src := src.take bytes.toNat
        if endWrite > s.writePos then memcpyTo s.buffer s.writePos src
        else
          let firstPartSize := s.bufSize - s.writePos
          memcpyTo (memcpyTo s.buffer s.writePos (src.take firstPartSize.toNat))
            0 (src.drop firstPartSize.toNat)
    (bytes,
      { s with writePos := endWrite, freeSpace := s.freeSpace - bytes,
               buffer := buf })

/-- `RingBuffer::SaveRead` (lines 202-209): unconditionally
`saveReadPos := readPos; saveFreeSpace := freeSpace` (the debug call
counter is dropped). -/
def SaveRead (s : RingBuffer) : RingBuffer :=
  { s with saveReadPos := s.readPos, saveFreeSpace := s.freeSpace }

/-- `RingBuffer::RestoreRead` (lines 211-254).  Returns void; the
post-update "verify" block only logs, so it is embedded separately as
`restoreCheckOk`. -/
def RestoreRead (s : RingBuffer) : RingBuffer :=
  if s.saveFreeSpace = -1 then s
  else
    let bytesWrittenSinceSave :=
      (s.writePos - s.saveReadPos + s.bufSize).tmod s.bufSize
    let newFreeSpace :=
      if 0 < bytesWrittenSinceSave then
        max 0 (s.saveFreeSpace - bytesWrittenSinceSave)
      else s.saveFreeSpace
    { s with readPos := s.saveReadPos, freeSpace := newFreeSpace,
             saveFreeSpace := -1, saveReadPos := -1 }

/-- The consistency check `RestoreRead` runs on the state it just wrote
(lines 244-248): `|usedSpace - expectedUsed| <= 1` where
`usedSpace = bufSize - freeSpace` and
`expectedUsed = (writePos - readPos + bufSize) % bufSize`;
the code logs "RestoreRead created inconsistent state!" when it fails. -/
def restoreCheckOk (s : RingBuffer) : Bool :=
  |(s.bufSize - s.freeSpace) -
      (s.writePos - s.readPos + s.bufSize).tmod s.bufSize| ≤ 1

/-- `RingBuffer::ClearSaveState` (lines 256-264). -/
def ClearSaveState (s : RingBuffer) : RingBuffer :=
  if s.saveFreeSpace ≠ -1 then
    { s with saveFreeSpace := -1, saveReadPos := -1 }
  else s

/-- `RingBuffer::PeekData(dst, bytes)` (lines 265-284).  A `const`
method: it takes a snapshot and never calls `UpdateAtomicState`, so the
returned state is the input state.  Result:
`((return value, bytes copied), state)`. -/
def PeekData (s : RingBuffer) (bytes : Int) :
    (Int × List Nat) × RingBuffer :=
  let usedSpace := s.snapUsedSpace
  if usedSpace < bytes then ((-1, []), s)
  else if s.readPos < 0 ∨ s.bufSize ≤ s.readPos then ((-1, []), s)
  else
    let contiguous := min bytes (s.bufSize - s.readPos)
    let part1 := memcpyFrom s.buffer s.readPos contiguous
    let data :=
      if contiguous < bytes then part1 ++ memcpyFrom s.buffer 0 (bytes - contiguous)
      else part1
    ((bytes, data), s)

/-- The `maxRewind` bound computed inside `RingBuffer::Rewind`
(lines 289-297). -/
def maxRewind (s : RingBuffer) : Int :=
  if s.saveReadPos ≠ -1 then
    (s.readPos - s.saveReadPos + s.bufSize).tmod s.bufSize
  else
    max 0 ((s.bufSize - s.freeSpace) -
      (s.writePos - s.readPos + s.bufSize).tmod s.bufSize)

/-- `RingBuffer::Rewind(bytes)` (lines 286-315). -/
def Rewind (s : RingBuffer) (bytes : Int) : Int × RingBuffer :=
  if s.maxRewind < bytes then (-s.maxRewind, s)
  else
    let newReadPos := (s.readPos - bytes + s.bufSize).tmod s.bufSize
    if newReadPos < 0 ∨ s.bufSize ≤ newReadPos then (-s.maxRewind, s)
    else (bytes,
      { s with readPos := newReadPos, freeSpace := s.freeSpace + bytes })

/-- `RingBuffer::SkipData(bytes)` (lines 317-335). -/
def SkipData (s : RingBuffer) (bytes : Int) : Int × RingBuffer :=
  if s.snapUsedSpace < bytes then (-1, s)
  else
    (bytes,
      { s with readPos := (s.readPos + bytes).tmod s.bufSize,
               freeSpace := s.freeSpace + bytes })

/-- `RingBuffer::Offset(delta)` (lines 337-356). -/
def Offset (s : RingBuffer) (delta : Int) : Int × RingBuffer :=
  let usedSpace := s.snapUsedSpace
  if 0 ≤ delta ∧ delta ≤ usedSpace then
    let newReadPos := (s.readPos + delta).tmod s.bufSize
    if newReadPos < 0 ∨ s.bufSize ≤ newReadPos then (-1, s)
    else (0,
      { s with readPos := newReadPos, freeSpace := s.freeSpace + delta })
  else (-2, s)

/-- `RingBuffer::CanOffset(offset)` (lines 358-366), a `const` method. -/
def CanOffset (s : RingBuffer) (offset : Int) : Bool :=
  let newReadPos := (s.readPos + offset + s.bufSize).tmod s.bufSize
  let distanceToWrite := (s.writePos - newReadPos + s.bufSize).tmod s.bufSize
  offset ≤ s.snapUsedSpace ∧ 0 ≤ distanceToWrite

/-- Well-formedness of a buffer state: positive size, cursors in range,
`freeSpace` within `[0, bufSize]`, save fields either cleared (`-1`) or
in range, and the storage really holds `bufSize` bytes. -/
def WF (s : RingBuffer) : Prop :=
  0 < s.bufSize ∧ 0 ≤ s.readPos ∧ s.readPos < s.bufSize ∧
  0 ≤ s.writePos ∧ s.writePos < s.bufSize ∧
  0 ≤ s.freeSpace ∧ s.freeSpace ≤ s.bufSize ∧
  (s.saveFreeSpace = -1 ∨ (0 ≤ s.saveFreeSpace ∧ s.saveFreeSpace ≤ s.bufSize)) ∧
  (s.saveReadPos = -1 ∨ (0 ≤ s.saveReadPos ∧ s.saveReadPos < s.bufSize)) ∧
  s.buffer.length = s.bufSize.toNat

instance (s : RingBuffer) : Decidable s.WF := by
  unfold WF; infer_instance

end RingBuffer

/-! Concrete states used by counterexamples and witnesses.  All are
reached from `Init 8` by plain API calls. -/

/-- `Init 8`: fresh buffer of 8 bytes. -/
def sample0 : RingBuffer := RingBuffer.Init 8

/-- After writing the 4 bytes `[1,2,3,4]` into `sample0`:
`freeSpace = 4`, `readPos = 0`, `writePos = 4`, Normal mode. -/
def sample4 : RingBuffer := (sample0.WriteData (some [1, 2, 3, 4]) 4).2

/-- `sample4` after `SaveRead()`: Peeking with anchor 0. -/
def samplePeek : RingBuffer := sample4.SaveRead

/-- `samplePeek` after skipping 2 bytes: still Peeking, read cursor 2,
two bytes consumed since the anchor. -/
def samplePeek2 : RingBuffer := (samplePeek.SkipData 2).2

/-- `sample0` after writing 8 bytes `[1..8]`: completely full
(`freeSpace = 0`) with `readPos = writePos = 0`, Normal mode. -/
def sampleFull : RingBuffer := (sample0.WriteData (some [1, 2, 3, 4, 5, 6, 7, 8]) 8).2

/-! Write/Read call sequences, for the accounting invariant (C9). -/

/-- One producer or consumer call: `WriteData(src, n)` or
`ReadData(dst, n)` with a non-negative requested length. -/
inductive RWOp where
  | write : Option (List Nat) → Nat → RWOp
  | read : Bool → Nat → RWOp
  deriving Repr

/-- Run a sequence of Write/Read calls, returning the final state
together with the total bytes actually written and actually read
(the values the calls returned, not the requested lengths). -/
def runOps : RingBuffer → List RWOp → RingBuffer × Int × Int
  | s, [] => (s, 0, 0)
  | s, RWOp.write src n :: rest =>
      let r := s.WriteData src (n : Int)
      let t := runOps r.2 rest
      (t.1, r.1 + t.2.1, t.2.2)
  | s, RWOp.read w n :: rest =>
      let r := s.ReadData w (n : Int)
      let t := runOps r.2.2 rest
      (t.1, t.2.1, r.1 + t.2.2)

/-- Concrete call sequence for the C9 witness. -/
def demoOps : List RWOp :=
  [RWOp.write (some [1, 2, 3]) 3, RWOp.read true 2,
   RWOp.write (some [4, 5, 6, 7, 8, 9]) 6, RWOp.read false 1]

/-- The part of well-formedness preserved by pure Write/Read sequences:
`freeSpace` stays in `[0, bufSize]` and the buffer stays in Normal mode. -/
def accInv (s : RingBuffer) : Prop :=
  0 ≤ s.freeSpace ∧ s.freeSpace ≤ s.bufSize ∧ s.saveFreeSpace = -1

instance (s : RingBuffer) : Decidable (accInv s) := by
  unfold accInv; infer_instance

/-! Helper lemmas on truncation modulus (C++ `%` on `int`). -/

/-- For a non-negative dividend and positive modulus, `tmod` lands in
`[0, N)`. -/
theorem tmod_nonneg_lt (a N : Int) (ha : 0 ≤ a) (hN : 0 < N) :
    0 ≤ a.tmod N ∧ a.tmod N < N :=
  ⟨Int.tmod_nonneg N ha, Int.tmod_lt_of_pos a hN⟩

/-- `(r + N) % N = r` for an in-range cursor `r`. -/
theorem tmod_add_self (r N : Int) (h0 : 0 ≤ r) (h1 : r < N) :
    (r + N).tmod N = r := by
  rw [Int.tmod_eq_emod (by omega) (by omega)]
  have h2 : (r + N) % N = r % N := by
    have h3 := Int.add_mul_emod_self_left r N 1
    rw [mul_one] at h3
    exact h3
  rw [h2, Int.emod_eq_of_lt h0 h1]

namespace RingBuffer

/-- With the state well-formed, the snapshot's effective free space is
at most `bufSize`, hence its used space is non-negative. -/
theorem snapUsedSpace_nonneg (s : RingBuffer) (hwf : s.WF) :
    0 ≤ s.snapUsedSpace := by
  obtain ⟨hN, hr0, hrN, hw0, hwN, hf0, hfN, hsv, hsr, hlen⟩ := hwf
  unfold snapUsedSpace EffectiveFreeSpace InSaveMode
  rcases hsv with h | h
  · simp [h]; omega
  · split <;> omega

/-- Closed form of `Offset` on a well-formed state: the inner
cursor-range recheck never fires, so the call succeeds exactly when
`0 ≤ delta ≤ snapUsedSpace` and otherwise returns `-2` unchanged. -/
theorem Offset_eq (s : RingBuffer) (delta : Int) (hwf : s.WF) :
    s.Offset delta =
      if 0 ≤ delta ∧ delta ≤ s.snapUsedSpace then
        (0, { s with readPos := (s.readPos + delta).tmod s.bufSize,
                     freeSpace := s.freeSpace + delta })
      else (-2, s) := by
  obtain ⟨hN, hr0, hrN, hw0, hwN, hf0, hfN, hsv, hsr, hlen⟩ := hwf
  by_cases h : 0 ≤ delta ∧ delta ≤ s.snapUsedSpace
  · have hb := tmod_nonneg_lt (s.readPos + delta) s.bufSize (by omega) hN
    simp only [Offset, if_pos h]
    rw [if_neg (by push_neg; omega)]
  · simp only [Offset, if_neg h]

/-- Closed form of `CanOffset`: the `distanceToWrite ≥ 0` conjunct is
vacuously true (a `tmod` of a positive dividend), so the predicate is
just `offset ≤ snapUsedSpace`. -/
theorem CanOffset_eq (s : RingBuffer) (off : Int) (hN : 0 < s.bufSize)
    (hw : 0 ≤ s.writePos) :
    s.CanOffset off = decide (off ≤ s.snapUsedSpace) := by
  unfold CanOffset
  have hlt : (s.readPos + off + s.bufSize).tmod s.bufSize < s.bufSize :=
    Int.tmod_lt_of_pos _ hN
  have hd : (0:Int) ≤
      (s.writePos - (s.readPos + off + s.bufSize).tmod s.bufSize + s.bufSize).tmod
        s.bufSize :=
    Int.tmod_nonneg _ (by omega)
  simp only [decide_eq_decide]
  exact ⟨fun h => h.1, fun h => ⟨h, hd⟩⟩

/-- On a well-formed state `maxRewind` is non-negative. -/
theorem maxRewind_nonneg (s : RingBuffer) (hwf : s.WF) : 0 ≤ s.maxRewind := by
  obtain ⟨hN, hr0, hrN, hw0, hwN, hf0, hfN, hsv, hsr, hlen⟩ := hwf
  unfold maxRewind
  split
  · rcases hsr with h | h
    · simp_all
    · exact Int.tmod_nonneg _ (by omega)
  · exact le_max_left 0 _

end RingBuffer

/-! Claim theorems. -/

/-- C1: the claim states that `SaveRead()`, reading `k` bytes
(`0 ≤ k ≤ UsedBytes()`), then `RestoreRead()` restores the read cursor
and `UsedBytes()` to their values at the `SaveRead`.  The code violates
this already at `k = 0`: on a buffer of size 8 holding 4 bytes,
`SaveRead()` immediately followed by `RestoreRead()` restores the read
cursor but sets `freeSpace` to 0 (because `RestoreRead` computes its
"bytes written since save" from the saved *read* position, which counts
the 4 bytes that were already present), so `UsedSpace()` jumps from 4
to 8 — and the code's own post-restore consistency check
(`|used - expected| ≤ 1`, lines 244-253) fails on the resulting state. -/
theorem C1_restoreRead_corrupts_usedSpace :
    RingBuffer.UsedSpace sample4 = 4 ∧
    RingBuffer.UsedSpace (RingBuffer.RestoreRead (RingBuffer.SaveRead sample4)) = 8 ∧
    (RingBuffer.RestoreRead (RingBuffer.SaveRead sample4)).readPos = sample4.readPos ∧
    RingBuffer.restoreCheckOk (RingBuffer.RestoreRead (RingBuffer.SaveRead sample4)) = false := by
  decide

/-- C2 counterexample: `samplePeek2` is already Peeking with anchor 0,
yet a second `SaveRead()` moves the anchor to the current read cursor 2
(and updates `saveFreeSpace`), so `SaveRead` while Peeking is not a
no-op. -/
theorem C2_saveRead_noop_counterexample :
    samplePeek2.InSaveMode = true ∧
    samplePeek2.saveReadPos = 0 ∧
    (RingBuffer.SaveRead samplePeek2).saveReadPos = 2 ∧
    RingBuffer.SaveRead samplePeek2 ≠ samplePeek2 := by
  decide

/-- C2 (amended): calling `SaveRead()` while the buffer is already in
Peeking mode unconditionally overwrites the anchor: it sets
`saveReadPos` to the current read cursor and `saveFreeSpace` to the
current `freeSpace`, leaving every other field unchanged. -/
theorem C2_saveRead_overwrites (s : RingBuffer) (h : s.InSaveMode = true) :
    (RingBuffer.SaveRead s).saveReadPos = s.readPos ∧
    (RingBuffer.SaveRead s).saveFreeSpace = s.freeSpace ∧
    (RingBuffer.SaveRead s).readPos = s.readPos ∧
    (RingBuffer.SaveRead s).writePos = s.writePos ∧
    (RingBuffer.SaveRead s).freeSpace = s.freeSpace ∧
    (RingBuffer.SaveRead s).bufSize = s.bufSize ∧
    (RingBuffer.SaveRead s).buffer = s.buffer :=
  ⟨rfl, rfl, rfl, rfl, rfl, rfl, rfl⟩

/-- C2 witness: the amended statement applied to the concrete Peeking
state `samplePeek2`. -/
theorem C2_saveRead_overwrites_witness :
    samplePeek2.InSaveMode = true ∧
    (RingBuffer.SaveRead samplePeek2).saveReadPos = samplePeek2.readPos ∧
    (RingBuffer.SaveRead samplePeek2).saveFreeSpace = samplePeek2.freeSpace :=
  ⟨by decide, (C2_saveRead_overwrites samplePeek2 (by decide)).1,
   (C2_saveRead_overwrites samplePeek2 (by decide)).2.1⟩

/-- C7 counterexample: `Init 8` allocates exactly 8 bytes, not
`8 + 1`; and equal cursors do not unambiguously mean empty — the full
state `sampleFull` has `readPos = writePos` while holding 8 bytes. -/
theorem C7_reserved_slot_counterexample :
    ¬ ((RingBuffer.Init 8).buffer.length = 8 + 1) ∧
    sampleFull.readPos = sampleFull.writePos ∧
    RingBuffer.UsedSpace sampleFull ≠ 0 := by
  decide

/-- C7 (amended): `Init(capacityBytes)` allocates exactly
`capacityBytes` bytes with no reserved slot; full and empty are
distinguished by the `freeSpace` counter, not by cursor comparison.
With capacity 8 (8-byte storage), after writing 8 bytes a further
1-byte `Write` returns 0 (full, state unchanged), and after reading 1
byte a subsequent 1-byte `Write` succeeds. -/
theorem C7_init_no_reserved_slot :
    (RingBuffer.Init 8).buffer.length = 8 ∧
    RingBuffer.UsedSpace sampleFull = 8 ∧
    (sampleFull.WriteData (some [9]) 1).1 = 0 ∧
    (sampleFull.WriteData (some [9]) 1).2 = sampleFull ∧
    (((sampleFull.ReadData true 1).2.2).WriteData (some [9]) 1).1 = 1 := by
  decide

/-- C3 counterexample: with 4 bytes available, `SkipData(6)` returns
`-1` and changes nothing, while `ReadData(null, 6)` clamps to 4 — so
`Skip` is not equivalent to `Read` with no destination and does not
clamp. -/
theorem C3_skip_clamp_counterexample :
    RingBuffer.snapUsedSpace sample4 = 4 ∧
    (sample4.SkipData 6).1 = -1 ∧
    (sample4.SkipData 6).2 = sample4 ∧
    (sample4.ReadData false 6).1 = 4 := by
  decide

/-- C3 (amended): when the requested length exceeds the available used
bytes, `SkipData` fails with `-1` and leaves the state unchanged
instead of clamping; but for every well-formed state and every
`0 ≤ len ≤` available bytes, `SkipData(len)` returns the same byte
count and produces exactly the same state (read cursor, free space,
anchor) as `ReadData` with a null destination and the same length. -/
theorem C3_skip_matches_read_within_bounds (s : RingBuffer) (len : Int)
    (hwf : s.WF) (h0 : 0 ≤ len) (hle : len ≤ s.snapUsedSpace) :
    (s.SkipData len).1 = (s.ReadData false len).1 ∧
    (s.SkipData len).2 = (s.ReadData false len).2.2 := by
  obtain ⟨hN, hr0, hrN, hw0, hwN, hf0, hfN, hsv, hsr, hlen⟩ := hwf
  have hnlt : ¬ s.snapUsedSpace < len := not_lt.mpr hle
  have hmin : min s.snapUsedSpace len = len := min_eq_right hle
  by_cases hz : len = 0
  · subst hz
    have hrp : s.readPos.tmod s.bufSize = s.readPos := Int.tmod_eq_of_lt hr0 hrN
    refine ⟨?_, ?_⟩ <;> simp [RingBuffer.SkipData, RingBuffer.ReadData, hnlt, hmin, hrp]
  · refine ⟨?_, ?_⟩ <;>
      simp [RingBuffer.SkipData, RingBuffer.ReadData, hnlt, hmin, hz]

/-- C3 witness: the amended statement at the concrete state `sample4`
with `len = 2`. -/
theorem C3_skip_matches_read_witness :
    sample4.WF ∧ (0:Int) ≤ 2 ∧ (2:Int) ≤ sample4.snapUsedSpace ∧
    ((sample4.SkipData 2).1 = (sample4.ReadData false 2).1 ∧
     (sample4.SkipData 2).2 = (sample4.ReadData false 2).2.2) :=
  ⟨by decide, by decide, by decide,
   C3_skip_matches_read_within_bounds sample4 2 (by decide) (by decide) (by decide)⟩

/-- C4 counterexample: `samplePeek2` is Peeking with 2 bytes consumed
since the anchor (`maxRewind = 2`), so the claim says `Offset(-1)`
succeeds and retreats the cursor like `Rewind(1)` — but the code
returns `-2` and changes nothing (while `Rewind(1)` does succeed). -/
theorem C4_offset_negative_counterexample :
    samplePeek2.InSaveMode = true ∧
    RingBuffer.maxRewind samplePeek2 = 2 ∧
    (samplePeek2.Offset (-1)).1 = -2 ∧
    (samplePeek2.Offset (-1)).2 = samplePeek2 ∧
    (samplePeek2.Rewind 1).1 = 1 := by
  decide

/-- C4 (amended): on a well-formed state `Offset(delta)` succeeds
(returns 0) iff `0 ≤ delta ≤` the snapshot's used space, in which case
it advances the read cursor by `delta` (mod `bufSize`) and adds `delta`
to `freeSpace`, exactly like `Skip`; every `delta < 0` fails with `-2`
and leaves the state unchanged, regardless of Peeking mode; and
`Offset(0)` always succeeds as a no-op. -/
theorem C4_offset_semantics (s : RingBuffer) (delta : Int) (hwf : s.WF) :
    ((s.Offset delta).1 = 0 ↔ 0 ≤ delta ∧ delta ≤ s.snapUsedSpace) ∧
    (delta < 0 → s.Offset delta = (-2, s)) ∧
    (0 ≤ delta → delta ≤ s.snapUsedSpace →
      s.Offset delta =
        (0, { s with readPos := (s.readPos + delta).tmod s.bufSize,
                     freeSpace := s.freeSpace + delta })) ∧
    s.Offset 0 = (0, s) := by
  have heq := RingBuffer.Offset_eq s delta hwf
  have heq0 := RingBuffer.Offset_eq s 0 hwf
  have hu0 := RingBuffer.snapUsedSpace_nonneg s hwf
  obtain ⟨hN, hr0, hrN, hw0, hwN, hf0, hfN, hsv, hsr, hlen⟩ := hwf
  refine ⟨?_, ?_, ?_, ?_⟩
  · by_cases h : 0 ≤ delta ∧ delta ≤ s.snapUsedSpace
    · rw [heq, if_pos h]; exact iff_of_true rfl h
    · rw [heq, if_neg h]; exact iff_of_false (by simp) h
  · intro hneg
    rw [heq, if_neg (fun hc => absurd hc.1 (not_le.mpr hneg))]
  · intro h1 h2
    rw [heq, if_pos ⟨h1, h2⟩]
  · rw [heq0, if_pos ⟨le_refl 0, hu0⟩]
    have hrp : (s.readPos + 0).tmod s.bufSize = s.readPos := by
      rw [add_zero]; exact Int.tmod_eq_of_lt hr0 hrN
    rw [hrp]
    simp

/-- C4 witness: the amended statement at `sample4` with `delta = 2`. -/
theorem C4_offset_semantics_witness :
    sample4.WF ∧
    ((sample4.Offset 2).1 = 0 ↔ 0 ≤ (2:Int) ∧ (2:Int) ≤ sample4.snapUsedSpace) ∧
    sample4.Offset 0 = (0, sample4) :=
  ⟨by decide, (C4_offset_semantics sample4 2 (by decide)).1,
   (C4_offset_semantics sample4 2 (by decide)).2.2.2⟩

/-- C5 counterexample: `CanOffset(-1)` returns `true` on `sample4`, but
`Offset(-1)` on the same state fails with `-2` — so `CanOffset` does
not return true iff `Offset` would succeed. -/
theorem C5_canOffset_counterexample :
    sample4.CanOffset (-1) = true ∧
    (sample4.Offset (-1)).1 = -2 ∧
    (sample4.Offset (-1)).2 = sample4 := by
  decide

/-- C5 (amended): `CanOffset` mutates no state (it is embedded as a
pure function of the state, as the `const` method touches no field) and
returns true iff `offset ≤` the snapshot's used space: its second bound
check `distanceToWrite ≥ 0` is vacuously true.  Hence it agrees with
`Offset`'s success exactly for `offset ≥ 0`; for `offset < 0` it
returns true although `Offset` always fails. -/
theorem C5_canOffset_semantics (s : RingBuffer) (off : Int) (hwf : s.WF) :
    (s.CanOffset off = true ↔ off ≤ s.snapUsedSpace) ∧
    (0 ≤ off → (s.CanOffset off = true ↔ (s.Offset off).1 = 0)) := by
  have heq := RingBuffer.Offset_eq s off hwf
  have hco := RingBuffer.CanOffset_eq s off hwf.1 hwf.2.2.2.1
  constructor
  · rw [hco]; simp
  · intro hge
    rw [hco]
    by_cases h : off ≤ s.snapUsedSpace
    · rw [heq, if_pos ⟨hge, h⟩]; simp [h]
    · rw [heq, if_neg (fun hc => h hc.2)]; simp [h]

/-- C5 witness: the amended statement at `sample4` with `offset = 2`. -/
theorem C5_canOffset_semantics_witness :
    sample4.WF ∧
    (sample4.CanOffset 2 = true ↔ (2:Int) ≤ sample4.snapUsedSpace) ∧
    (sample4.CanOffset 2 = true ↔ (sample4.Offset 2).1 = 0) :=
  ⟨by decide, (C5_canOffset_semantics sample4 2 (by decide)).1,
   (C5_canOffset_semantics sample4 2 (by decide)).2 (by decide)⟩

/-- C6 counterexample: `sampleFull` is in Normal mode (no anchor), yet
`Rewind(3)` *succeeds*: it returns 3 and moves the read cursor to 5.
In a completely full buffer the Normal-mode `maxRewind` computation
(`totalBufferUsed - usedSpace`) yields `bufSize`, so the rewind is
allowed; there is no `NoSaveState` error at all. -/
theorem C6_rewind_normal_counterexample :
    sampleFull.IsReadMode = true ∧
    (sampleFull.Rewind 3).1 = 3 ∧
    (sampleFull.Rewind 3).2.readPos = 5 ∧
    (sampleFull.Rewind 3).2 ≠ sampleFull := by
  decide

/-- C6 (amended): in Normal mode, in every state whose `freeSpace`
counter is consistent with the cursors
(`bufSize - freeSpace = (writePos - readPos + bufSize) % bufSize`,
which excludes the completely full buffer), `Rewind(n)` for `n > 0`
returns 0 — the negated maximum rewind distance, there being no
distinct `NoSaveState` error value — and leaves all state unchanged;
and a backward `Seek` (`Offset` with `delta < 0`) fails with `-2`,
also leaving the state unchanged. -/
theorem C6_rewind_normal (s : RingBuffer) (n : Int)
    (hmode : s.saveReadPos = -1)
    (hcons : s.bufSize - s.freeSpace =
      (s.writePos - s.readPos + s.bufSize).tmod s.bufSize)
    (hn : 0 < n) :
    s.Rewind n = (0, s) ∧ ∀ d : Int, d < 0 → s.Offset d = (-2, s) := by
  constructor
  · have hmax : s.maxRewind = 0 := by
      unfold RingBuffer.maxRewind
      rw [if_neg (by simp [hmode])]
      omega
    unfold RingBuffer.Rewind
    rw [hmax, if_pos hn]
    norm_num
  · intro d hd
    simp only [RingBuffer.Offset]
    rw [if_neg (fun hc => absurd hc.1 (not_le.mpr hd))]

/-- C6 witness: the amended statement at `sample4` (a consistent
Normal-mode state) with `n = 1` and backward delta `-3`. -/
theorem C6_rewind_normal_witness :
    sample4.saveReadPos = -1 ∧
    sample4.bufSize - sample4.freeSpace =
      (sample4.writePos - sample4.readPos + sample4.bufSize).tmod sample4.bufSize ∧
    (0:Int) < 1 ∧
    sample4.Rewind 1 = (0, sample4) ∧
    sample4.Offset (-3) = (-2, sample4) :=
  ⟨by decide, by decide, by decide,
   (C6_rewind_normal sample4 1 (by decide) (by decide) (by decide)).1,
   (C6_rewind_normal sample4 1 (by decide) (by decide) (by decide)).2 (-3) (by decide)⟩

/-- C8: `PeekData` never changes any state (the method is `const` and
writes back nothing); when fewer than `len` bytes are available it
returns `-1` and copies nothing at all (never a partial copy); and two
peeks of the same length with no intervening operation — the second
running on the state the first returned — produce identical results. -/
theorem C8_peek_pure_all_or_nothing (s : RingBuffer) (len : Int) :
    (s.PeekData len).2 = s ∧
    (s.snapUsedSpace < len → (s.PeekData len).1 = (-1, [])) ∧
    ((s.PeekData len).2).PeekData len = s.PeekData len := by
  have hstate : (s.PeekData len).2 = s := by
    simp only [RingBuffer.PeekData]
    split_ifs <;> rfl
  refine ⟨hstate, ?_, by rw [hstate]⟩
  intro h
  simp only [RingBuffer.PeekData]
  rw [if_pos h]

/-- C8 witness: at `sample4` with `len = 6` (only 4 bytes available):
the state is untouched and the result is the `-1` sentinel with no
bytes. -/
theorem C8_peek_witness :
    (sample4.PeekData 6).2 = sample4 ∧
    RingBuffer.snapUsedSpace sample4 < 6 ∧
    (sample4.PeekData 6).1 = (-1, []) :=
  ⟨(C8_peek_pure_all_or_nothing sample4 6).1, by decide,
   (C8_peek_pure_all_or_nothing sample4 6).2.1 (by decide)⟩

/-- One `WriteData` call preserves `accInv`, keeps `bufSize`, and
decreases `freeSpace` by exactly the returned byte count. -/
theorem WriteData_acc (s : RingBuffer) (src : Option (List Nat)) (n : Nat)
    (h : accInv s) :
    accInv (s.WriteData src (n : Int)).2 ∧
    (s.WriteData src (n : Int)).2.bufSize = s.bufSize ∧
    (s.WriteData src (n : Int)).2.freeSpace
      = s.freeSpace - (s.WriteData src (n : Int)).1 := by
  obtain ⟨hf0, hfN, hsv⟩ := h
  have heff : s.EffectiveFreeSpace = s.freeSpace := by
    simp [RingBuffer.EffectiveFreeSpace, RingBuffer.InSaveMode, hsv]
  have hb0 : 0 ≤ min s.EffectiveFreeSpace (n : Int) := by
    rw [heff]; exact le_min hf0 (Int.natCast_nonneg n)
  have hble : min s.EffectiveFreeSpace (n : Int) ≤ s.freeSpace := by
    rw [heff]; exact min_le_left _ _
  simp only [RingBuffer.WriteData]
  by_cases hz : min s.EffectiveFreeSpace (n : Int) = 0
  · rw [if_pos hz]
    exact ⟨⟨hf0, hfN, hsv⟩, rfl, by simp⟩
  · rw [if_neg hz]
    refine ⟨⟨?_, ?_, hsv⟩, rfl, rfl⟩
    · show 0 ≤ s.freeSpace - min s.EffectiveFreeSpace (n : Int)
      omega
    · show s.freeSpace - min s.EffectiveFreeSpace (n : Int) ≤ s.bufSize
      omega

/-- One `ReadData` call preserves `accInv`, keeps `bufSize`, and
increases `freeSpace` by exactly the returned byte count. -/
theorem ReadData_acc (s : RingBuffer) (w : Bool) (n : Nat)
    (h : accInv s) :
    accInv (s.ReadData w (n : Int)).2.2 ∧
    (s.ReadData w (n : Int)).2.2.bufSize = s.bufSize ∧
    (s.ReadData w (n : Int)).2.2.freeSpace
      = s.freeSpace + (s.ReadData w (n : Int)).1 := by
  obtain ⟨hf0, hfN, hsv⟩ := h
  have heff : s.snapUsedSpace = s.bufSize - s.freeSpace := by
    simp [RingBuffer.snapUsedSpace, RingBuffer.EffectiveFreeSpace,
      RingBuffer.InSaveMode, hsv]
  have hb0 : 0 ≤ min s.snapUsedSpace (n : Int) := by
    rw [heff]; exact le_min (by omega) (Int.natCast_nonneg n)
  have hble : min s.snapUsedSpace (n : Int) ≤ s.bufSize - s.freeSpace := by
    rw [heff]; exact min_le_left _ _
  simp only [RingBuffer.ReadData]
  by_cases hz : min s.snapUsedSpace (n : Int) = 0
  · rw [if_pos hz]
    exact ⟨⟨hf0, hfN, hsv⟩, rfl, by simp⟩
  · rw [if_neg hz]
    refine ⟨⟨?_, ?_, hsv⟩, rfl, rfl⟩
    · show 0 ≤ s.freeSpace + min s.snapUsedSpace (n : Int)
      omega
    · show s.freeSpace + min s.snapUsedSpace (n : Int) ≤ s.bufSize
      omega

/-- Running any Write/Read sequence preserves `accInv` and `bufSize`,
and the final `freeSpace` is the initial one minus the total bytes
actually written plus the total bytes actually read. -/
theorem runOps_acc (ops : List RWOp) : ∀ s : RingBuffer, accInv s →
    accInv (runOps s ops).1 ∧ (runOps s ops).1.bufSize = s.bufSize ∧
    (runOps s ops).1.freeSpace
      = s.freeSpace - (runOps s ops).2.1 + (runOps s ops).2.2 := by
  induction ops with
  | nil =>
    intro s hs
    exact ⟨hs, rfl, by simp [runOps]⟩
  | cons op rest ih =>
    intro s hs
    cases op with
    | write src n =>
      have hw := WriteData_acc s src n hs
      have hr := ih (s.WriteData src (n : Int)).2 hw.1
      simp only [runOps]
      refine ⟨hr.1, by rw [hr.2.1, hw.2.1], ?_⟩
      rw [hr.2.2, hw.2.2]
      ring
    | read w n =>
      have hw := ReadData_acc s w n hs
      have hr := ih (s.ReadData w (n : Int)).2.2 hw.1
      simp only [runOps]
      refine ⟨hr.1, by rw [hr.2.1, hw.2.1], ?_⟩
      rw [hr.2.2, hw.2.2]
      ring

/-- C9: starting from a freshly constructed buffer, for every sequence
of `WriteData`/`ReadData` calls (no peek or save-state operations),
`UsedSpace()` of the final state equals the total bytes the writes
actually returned minus the total bytes the reads actually returned,
and this never exceeds the buffer size. -/
theorem C9_used_accounting (ops : List RWOp) (size : Int) (hsz : 0 < size) :
    RingBuffer.UsedSpace (runOps (RingBuffer.Init size) ops).1
      = (runOps (RingBuffer.Init size) ops).2.1
        - (runOps (RingBuffer.Init size) ops).2.2 ∧
    RingBuffer.UsedSpace (runOps (RingBuffer.Init size) ops).1
      ≤ RingBuffer.BufSize (runOps (RingBuffer.Init size) ops).1 := by
  have hfree : (RingBuffer.Init size).freeSpace = size := rfl
  have hbs : (RingBuffer.Init size).bufSize = size := rfl
  have h0 : accInv (RingBuffer.Init size) :=
    ⟨by rw [hfree]; omega, by rw [hfree, hbs], rfl⟩
  obtain ⟨⟨ha, hb, -⟩, hsize, hfs⟩ := runOps_acc ops (RingBuffer.Init size) h0
  unfold RingBuffer.UsedSpace RingBuffer.BufSize
  rw [hsize, hfs, hfree, hbs]
  constructor <;> omega

/-- C9 witness: the accounting property at `Init 8` with the concrete
call sequence `demoOps`. -/
theorem C9_used_accounting_witness :
    (0:Int) < 8 ∧
    (RingBuffer.UsedSpace (runOps (RingBuffer.Init 8) demoOps).1
      = (runOps (RingBuffer.Init 8) demoOps).2.1
        - (runOps (RingBuffer.Init 8) demoOps).2.2 ∧
     RingBuffer.UsedSpace (runOps (RingBuffer.Init 8) demoOps).1
      ≤ RingBuffer.BufSize (runOps (RingBuffer.Init 8) demoOps).1) :=
  ⟨by decide, C9_used_accounting demoOps 8 (by decide)⟩

/-- C10: when `Rewind(n)` is called with `n` greater than `maxRewind`
(the maximum rewindable distance) it leaves all state unchanged and
returns `-maxRewind`, not a fixed error code; and on a well-formed
state `Rewind(0)` succeeds returning 0 with the state unchanged — so
when `maxRewind = 0` the failure return is 0, indistinguishable from a
successful `Rewind(0)`. -/
theorem C10_rewind_failure_return (s : RingBuffer) (n : Int) :
    (s.maxRewind < n → s.Rewind n = (-s.maxRewind, s)) ∧
    (s.WF → s.Rewind 0 = (0, s)) := by
  constructor
  · intro h
    unfold RingBuffer.Rewind
    rw [if_pos h]
  · intro hwf
    have hmr := RingBuffer.maxRewind_nonneg s hwf
    obtain ⟨hN, hr0, hrN, hw0, hwN, hf0, hfN, hsv, hsr, hlen⟩ := hwf
    have hrp : (s.readPos - 0 + s.bufSize).tmod s.bufSize = s.readPos := by
      rw [sub_zero]; exact tmod_add_self s.readPos s.bufSize hr0 hrN
    have hnr : ¬ (s.readPos < 0 ∨ s.bufSize ≤ s.readPos) := by
      push_neg; exact ⟨hr0, hrN⟩
    simp only [RingBuffer.Rewind, hrp]
    rw [if_neg (by omega), if_neg hnr]
    simp

/-- C10 witness: at `sample4` (where `maxRewind = 0`): `Rewind(1)`
fails returning `-maxRewind = 0` with state unchanged, and `Rewind(0)`
succeeds returning 0 with state unchanged. -/
theorem C10_rewind_failure_witness :
    RingBuffer.maxRewind sample4 < 1 ∧
    sample4.Rewind 1 = (-sample4.maxRewind, sample4) ∧
    sample4.WF ∧
    sample4.Rewind 0 = (0, sample4) :=
  ⟨by decide, (C10_rewind_failure_return sample4 1).1 (by decide), by decide,
   (C10_rewind_failure_return sample4 0).2 (by decide)⟩
